import Mathlib

/-!
Verification of the ZeroTrust-Track event pipeline against its
natural-language specification.  The Rust sources are shallowly embedded:
pure functions become Lean functions, the stateful correlator and filter
become explicit state-passing functions, machine integers become `Nat`/`Int`
with explicit bounds where overflow matters, and panicking code returns
`Except`/`Option`.
-/

namespace ZeroTrust

/-! ## Data model (src/enums/mod.rs, src/parser/mod.rs) -/

/-- UUIDs are opaque 128-bit identifiers; we model them as naturals. -/
abbrev Uuid := Nat

/-- An IPv4 address as its four dotted-form octets. -/
structure Ipv4 where
  a : Nat
  b : Nat
  c : Nat
  d : Nat
deriving DecidableEq, Repr

/-- `enums::Protocol`. -/
inductive Protocol where
  | UDP
  | TCP
deriving DecidableEq, Repr

/-- The `fmt::Display` impl for `Protocol`. -/
def Protocol.displayStr : Protocol → String
  | .UDP => "UDP"
  | .TCP => "TCP"

/-- `parser::Program`. -/
structure Program where
  inode : Nat
  pid : Nat
  process_name : String
  command_line : List String
deriving DecidableEq, Repr

/-- `parser::OpenConnection`. -/
structure OpenConnection where
  hash : Int
  uuid : Uuid
  agent : Uuid
  timestamp : String
  protocol : Protocol
  source : Ipv4
  destination : Ipv4
  source_port : Nat
  destination_port : Nat
  username : String
  uid : Nat
  program_details : Option Program
deriving DecidableEq, Repr

/-- `parser::CloseConnection`. -/
structure CloseConnection where
  hash : Int
  agent : Uuid
  uuid : Option Uuid
  timestamp : String
  protocol : Protocol
  source : Ipv4
  destination : Ipv4
  source_port : Nat
  destination_port : Nat
deriving DecidableEq, Repr

/-- `parser::Payload`. -/
inductive Payload where
  | Open (c : OpenConnection)
  | Close (c : CloseConnection)
deriving DecidableEq, Repr

/-- The correlation key carried by a payload. -/
def payloadHash : Payload → Int
  | .Open c => c.hash
  | .Close c => c.hash

/-! ## Conntrack ingester (src/conn_track/mod.rs)

The semantic-state decoding of `process_data_callback` (lines 210-244):
the low byte of `nlmsg_type` is compared against the conntrack message
types, and for NEW the `NLM_F_CREATE` flag is consulted. -/

namespace Enums

/-- `enums::State`. -/
inductive State where
  | New
  | Destroy
  | Unknown
deriving DecidableEq, Repr

end Enums

/-- `CtnlMsgTypes::NEW` (`IPCTNL_MSG_CT_NEW`, Linux ABI). -/
def CTNL_MSG_NEW : Nat := 0

/-- `CtnlMsgTypes::DELETE` (`IPCTNL_MSG_CT_DELETE`, Linux ABI). -/
def CTNL_MSG_DELETE : Nat := 2

/-- `netlink::NLM_F_CREATE`. -/
def NLM_F_CREATE : Nat := 0x400

/-- The state decoding in `process_data_callback`: match on the low byte of
`nlmsg_type`; NEW consults `NLM_F_CREATE` in `nlmsg_flags`. -/
def decodeState (nlmsg_type : Nat) (nlmsg_flags : Nat) : Enums.State :=
  if nlmsg_type &&& 0xFF = CTNL_MSG_NEW then
    if nlmsg_flags &&& NLM_F_CREATE ≠ 0 then Enums.State.New else Enums.State.Unknown
  else if nlmsg_type &&& 0xFF = CTNL_MSG_DELETE then Enums.State.Destroy
  else Enums.State.Unknown

/-! ## Correlator (src/state/mod.rs)

`State.connections` is a `HashMap<i64, Uuid>`; we embed it as an
association list whose observable behaviour (`lookupM`) matches the map:
`insert` prepends after erasing the key, `remove` erases the key. -/

/-- `HashMap::get` on the embedded map: first binding of the key. -/
def lookupM : List (Int × Uuid) → Int → Option Uuid
  | [], _ => none
  | (k, v) :: t, h => if k = h then some v else lookupM t h

/-- `HashMap::remove` on the embedded map: erase every binding of the key. -/
def removeM : List (Int × Uuid) → Int → List (Int × Uuid)
  | [], _ => []
  | (k, v) :: t, h => if k = h then removeM t h else (k, v) :: removeM t h

/-- `state::State`. -/
structure State where
  connections : List (Int × Uuid)

/-- `State::new`. -/
def State.init : State := ⟨[]⟩

/-- `State::transform` (src/state/mod.rs lines 34-47): an Open inserts
`(hash → uuid)` and passes through; a Close removes the entry by hash and,
when one was present, replaces its `uuid` with the removed UUID. -/
def State.transform (s : State) (p : Payload) : State × Payload :=
  match p with
  | .Open c => (⟨(c.hash, c.uuid) :: removeM s.connections c.hash⟩, .Open c)
  | .Close c =>
    match lookupM s.connections c.hash with
    | some u => (⟨removeM s.connections c.hash⟩, .Close { c with uuid := some u })
    | none => (⟨removeM s.connections c.hash⟩, .Close c)

/-- Run `State::transform` over a sequence of payloads, keeping the state. -/
def runState (s : State) (ps : List Payload) : State :=
  ps.foldl (fun st p => (st.transform p).fst) s

/-! ## Filter (src/filters/mod.rs)

`Filter.filtered` is a `HashSet<i64>`; we embed it as a duplicate-free list:
`insert` is a no-op when the element is present, `remove` erases it. -/

/-- `filters::FiltersConfig`. -/
structure FiltersConfig where
  non_process_connections : Bool
  dns_requests : Bool
  notrust_track_connections : Bool
deriving DecidableEq, Repr

/-- `filters::Filter`. -/
structure Filter where
  config : FiltersConfig
  filtered : List Int
  pid : Nat
deriving DecidableEq, Repr

/-- `HashSet::insert` on the embedded set. -/
def insertS (s : List Int) (h : Int) : List Int := if h ∈ s then s else h :: s

/-- `HashSet::remove` on the embedded set (erases the one occurrence). -/
def removeS : List Int → Int → List Int
  | [], _ => []
  | a :: t, h => if a = h then t else a :: removeS t h

/-- `Filter::new`: empty dropped-hash set, agent pid recorded. -/
def Filter.new (config : FiltersConfig) (pid : Nat) : Filter := ⟨config, [], pid⟩

/-- `Filter::apply` (src/filters/mod.rs lines 45-87): the three Open checks
in source order, each inserting the hash and dropping; a Close whose hash is
in the set removes it and is dropped; everything else passes. -/
def Filter.apply (f : Filter) : Payload → Bool × Filter
  | .Open c =>
    if f.config.non_process_connections && c.program_details.isNone then
      (true, { f with filtered := insertS f.filtered c.hash })
    else if f.config.notrust_track_connections &&
        (match c.program_details with | some d => d.pid == f.pid | none => false) then
      (true, { f with filtered := insertS f.filtered c.hash })
    else if f.config.dns_requests &&
        (c.destination_port == 53 || c.destination_port == 5353) then
      (true, { f with filtered := insertS f.filtered c.hash })
    else (false, f)
  | .Close c =>
    if c.hash ∈ f.filtered then (true, { f with filtered := removeS f.filtered c.hash })
    else (false, f)

/-- The disjunction of the three Open drop conditions, in source order. -/
def dropsOpen (f : Filter) (c : OpenConnection) : Bool :=
  (f.config.non_process_connections && c.program_details.isNone) ||
  (f.config.notrust_track_connections &&
    (match c.program_details with | some d => d.pid == f.pid | none => false)) ||
  (f.config.dns_requests && (c.destination_port == 53 || c.destination_port == 5353))

/-- Run `Filter::apply` over a sequence of payloads, keeping the state. -/
def runFilter (f : Filter) (ps : List Payload) : Filter :=
  ps.foldl (fun g p => (g.apply p).snd) f

/-! ## Sample payloads, used to instantiate witnesses on concrete inputs. -/

/-- A concrete Open payload with the given hash and uuid. -/
def sampleOpen (h : Int) (u : Uuid) : OpenConnection :=
  { hash := h, uuid := u, agent := 7, timestamp := "1970-01-01T00:00:00+00:00",
    protocol := .TCP, source := ⟨127, 0, 0, 1⟩, destination := ⟨127, 0, 0, 1⟩,
    source_port := 22, destination_port := 22, username := "hello", uid := 10,
    program_details := none }

/-- A concrete Close payload with the given hash and no uuid. -/
def sampleClose (h : Int) : CloseConnection :=
  { hash := h, agent := 7, uuid := none, timestamp := "1970-01-01T00:00:00+00:00",
    protocol := .TCP, source := ⟨127, 0, 0, 1⟩, destination := ⟨127, 0, 0, 1⟩,
    source_port := 22, destination_port := 22 }

/-- A concrete fresh filter that drops only no-program Opens. -/
def sampleFilter : Filter := Filter.new ⟨true, false, false⟩ 99

/-! ## Socket-table reader (src/proc_chomper/mod.rs)

`parse_connection` panics (`unwrap`) on a failed numeric parse; the panic
is embedded as `Except.error ()`, which aborts the refresh (`update` never
replaces the map). -/

/-- The value of an ASCII digit or letter, as in `char::to_digit`. -/
def charVal (c : Char) : Option Nat :=
  if '0' ≤ c ∧ c ≤ '9' then some (c.toNat - '0'.toNat)
  else if 'a' ≤ c ∧ c ≤ 'z' then some (c.toNat - 'a'.toNat + 10)
  else if 'A' ≤ c ∧ c ≤ 'Z' then some (c.toNat - 'A'.toNat + 10)
  else none

/-- A digit in the given radix. -/
def digitVal (radix : Nat) (c : Char) : Option Nat :=
  match charVal c with
  | some v => if v < radix then some v else none
  | none => none

/-- Accumulate digits left to right. -/
def digitsAux (radix : Nat) : List Char → Nat → Option Nat
  | [], acc => some acc
  | c :: t, acc =>
    match digitVal radix c with
    | some v => digitsAux radix t (acc * radix + v)
    | none => none

/-- `uNN::from_str_radix`: an optional leading plus sign, then at least one
digit; fails on any non-digit and on overflow past `bound`. -/
def from_str_radix (radix : Nat) (bound : Nat) (cs : List Char) : Option Nat :=
  let cs := match cs with
    | '+' :: t => t
    | other => other
  match cs with
  | [] => none
  | _ =>
    match digitsAux radix cs 0 with
    | some v => if v < bound then some v else none
    | none => none

/-- Rust's `str::split` on a single separator character. -/
def splitOnChar (sep : Char) : List Char → List (List Char)
  | [] => [[]]
  | c :: t =>
    let r := splitOnChar sep t
    if c = sep then [] :: r
    else
      match r with
      | [] => [[c]]
      | h :: t2 => (c :: h) :: t2

/-- `line.split(" ")` followed by `retain(|x| x.len() != 0)`. -/
def tokens (line : List Char) : List (List Char) :=
  (splitOnChar ' ' line).filter (fun t => t.length ≠ 0)

/-- `split_address` (src/proc_chomper/mod.rs lines 153-162). -/
def split_address (pair : List Char) : Option (List Char × List Char) :=
  match splitOnChar ':' pair with
  | a :: b :: _ => some (a, b)
  | _ => none

/-- `u32::from_be` on a little-endian host: byte swap. -/
def u32_from_be (n : Nat) : Nat :=
  (n % 256) * 0x1000000 + (n / 256 % 256) * 0x10000 +
    (n / 0x10000 % 256) * 0x100 + (n / 0x1000000 % 256)

/-- `Ipv4Addr::from(u32)`: the most significant byte is the first octet. -/
def Ipv4.ofU32 (n : Nat) : Ipv4 :=
  ⟨n / 0x1000000 % 256, n / 0x10000 % 256, n / 0x100 % 256, n % 256⟩

/-- `proc_chomper::SocketConnection`. -/
structure SocketConnection where
  local_address : Ipv4
  local_port : Nat
  remote_address : Ipv4
  remote_port : Nat
  uid : Nat
  inode : Nat
deriving DecidableEq, Repr

/-- The defaults set at the top of `parse_connection`. -/
def defaultConnection : SocketConnection :=
  ⟨⟨127, 0, 0, 1⟩, 0, ⟨127, 0, 0, 1⟩, 0, 0, 0⟩

/-- One arm of the `for (count, item)` match in `parse_connection`:
columns 1 and 2 are `HEXIP:HEXPORT` endpoints (a missing colon leaves the
defaults in place; a failed hex parse panics), column 7 is the decimal uid
and column 9 the decimal inode (a failed parse panics). -/
def parseStep (count : Nat) (item : List Char) (s : SocketConnection) :
    Except Unit SocketConnection :=
  if count = 1 then
    match split_address item with
    | some (a, p) =>
      match from_str_radix 16 4294967296 a, from_str_radix 16 65536 p with
      | some addr, some port =>
        .ok { s with local_address := Ipv4.ofU32 (u32_from_be addr), local_port := port }
      | _, _ => .error ()
    | none => .ok s
  else if count = 2 then
    match split_address item with
    | some (a, p) =>
      match from_str_radix 16 4294967296 a, from_str_radix 16 65536 p with
      | some addr, some port =>
        .ok { s with remote_address := Ipv4.ofU32 (u32_from_be addr), remote_port := port }
      | _, _ => .error ()
    | none => .ok s
  else if count = 7 then
    match from_str_radix 10 65536 item with
    | some v => .ok { s with uid := v }
    | none => .error ()
  else if count = 9 then
    match from_str_radix 10 4294967296 item with
    | some v => .ok { s with inode := v }
    | none => .error ()
  else .ok s

/-- The enumerated loop body of `parse_connection`. -/
def parseLoop : List (List Char) → Nat → SocketConnection → Except Unit SocketConnection
  | [], _, s => .ok s
  | item :: t, count, s =>
    match parseStep count item s with
    | .ok s2 => parseLoop t (count + 1) s2
    | .error e => .error e

/-- `parse_connection` (src/proc_chomper/mod.rs lines 108-151). -/
def parse_connection (line : String) : Except Unit SocketConnection :=
  parseLoop (tokens line.data) 0 defaultConnection

/-- First-match lookup in the embedded socket-table map (prepending on
insert makes the last writer win, as in the `HashMap`). -/
def lookupK : List ((Ipv4 × Nat) × SocketConnection) → Ipv4 × Nat → Option SocketConnection
  | [], _ => none
  | (k, v) :: t, q => if k = q then some v else lookupK t q

/-- The enumerated loop of `ProcChomper::update`: skip the header line,
parse every other line, and index each parsed row under its local and its
remote endpoint. -/
def updateAux : List String → Nat → List ((Ipv4 × Nat) × SocketConnection) →
    Except Unit (List ((Ipv4 × Nat) × SocketConnection))
  | [], _, m => .ok m
  | l :: t, num, m =>
    if num = 0 then updateAux t (num + 1) m
    else
      match parse_connection l with
      | .ok c =>
        updateAux t (num + 1)
          (((c.remote_address, c.remote_port), c) :: ((c.local_address, c.local_port), c) :: m)
      | .error e => .error e

/-- `ProcChomper::update` (src/proc_chomper/mod.rs lines 62-93) on the
lines of `/proc/net/{tcp,udp}`; an error never replaces the map. -/
def ProcChomper.update (lines : List String) :
    Except Unit (List ((Ipv4 × Nat) × SocketConnection)) :=
  updateAux lines 0 []

/-- The `/proc/net/tcp` row from the claim. -/
def testLine : String :=
  "   3: 669010AC:0016 019010AC:D575 01 00000000:00000000 02:000577BD 00000000     0        0 1227937 2 0000000000000000 20 4 25 2 2"

/-- The same row with the colon removed from the local-endpoint column. -/
def noColonLine : String :=
  "   3: 669010AC0016 019010AC:D575 01 00000000:00000000 02:000577BD 00000000     0        0 1227937 2 0000000000000000 20 4 25 2 2"

/-- A row whose uid column (column 7) is not decimal. -/
def badUidLine : String :=
  "   3: 669010AC:0016 019010AC:D575 01 00000000:00000000 02:000577BD 00000000     X        0 1227937 2"

/-- A row whose inode column (column 9) is not decimal. -/
def badInodeLine : String :=
  "   3: 669010AC:0016 019010AC:D575 01 00000000:00000000 02:000577BD 00000000     0        0 Y 2"

/-- What `parse_connection` returns on `testLine`. -/
def testConn : SocketConnection :=
  ⟨⟨172, 16, 144, 102⟩, 22, ⟨172, 16, 144, 1⟩, 54645, 0, 1227937⟩

/-- What `parse_connection` returns on `noColonLine`: the local endpoint
keeps its defaults. -/
def noColonConn : SocketConnection :=
  ⟨⟨127, 0, 0, 1⟩, 0, ⟨172, 16, 144, 1⟩, 54645, 0, 1227937⟩

/-! ## Fingerprint (src/parser/mod.rs lines 32-46)

`generate_hash` drives a `DefaultHasher` — SipHash-1-3 with both keys 0 —
over the `Hash` encodings of its five arguments, in order.  The hasher is
embedded as the byte stream written to it; `finish` runs SipHash-1-3 over
that stream.  All 64-bit arithmetic is `Nat` reduced mod `2^64`. -/

/-- Rotate a 64-bit word left. -/
def rotl64 (x b : Nat) : Nat :=
  ((x <<< b) % 18446744073709551616) ||| (x >>> (64 - b))

/-- One SipHash round. -/
def sipRound : Nat × Nat × Nat × Nat → Nat × Nat × Nat × Nat := fun st =>
  let v0 := (st.1 + st.2.1) % 18446744073709551616
  let v1 := rotl64 st.2.1 13
  let v1 := Nat.xor v1 v0
  let v0 := rotl64 v0 32
  let v2 := (st.2.2.1 + st.2.2.2) % 18446744073709551616
  let v3 := rotl64 st.2.2.2 16
  let v3 := Nat.xor v3 v2
  let v0 := (v0 + v3) % 18446744073709551616
  let v3 := rotl64 v3 21
  let v3 := Nat.xor v3 v0
  let v2 := (v2 + v1) % 18446744073709551616
  let v1 := rotl64 v1 17
  let v1 := Nat.xor v1 v2
  let v2 := rotl64 v2 32
  (v0, v1, v2, v3)

/-- Fold one message word into the state (SipHash-1-3: one round). -/
def sipCompress (st : Nat × Nat × Nat × Nat) (m : Nat) : Nat × Nat × Nat × Nat :=
  let v3 := Nat.xor st.2.2.2 m
  let r := sipRound (st.1, st.2.1, st.2.2.1, v3)
  (Nat.xor r.1 m, r.2.1, r.2.2.1, r.2.2.2)

/-- A little-endian byte list as a number. -/
def leBytes : List Nat → Nat
  | [] => 0
  | b :: t => (b % 256) + 256 * leBytes t

/-- Consume full 8-byte words, then the final padded word carrying the
total length, then the three finalization rounds. -/
def sipLoop (st : Nat × Nat × Nat × Nat) (len : Nat) : List Nat → Nat
  | b0 :: b1 :: b2 :: b3 :: b4 :: b5 :: b6 :: b7 :: rest =>
    sipLoop (sipCompress st (leBytes [b0, b1, b2, b3, b4, b5, b6, b7])) len rest
  | rest =>
    let b := leBytes rest + (len % 256) * 72057594037927936
    let f := sipCompress st b
    let f := (f.1, f.2.1, Nat.xor f.2.2.1 255, f.2.2.2)
    let f := sipRound (sipRound (sipRound f))
    Nat.xor (Nat.xor f.1 f.2.1) (Nat.xor f.2.2.1 f.2.2.2)

/-- SipHash-1-3 over a byte stream. -/
def sipHash13 (k0 k1 : Nat) (bytes : List Nat) : Nat :=
  let v0 := Nat.xor k0 0x736f6d6570736575
  let v1 := Nat.xor k1 0x646f72616e646f6d
  let v2 := Nat.xor k0 0x6c7967656e657261
  let v3 := Nat.xor k1 0x7465646279746573
  sipLoop (v0, v1, v2, v3) bytes.length bytes

/-- `DefaultHasher::finish` on the accumulated byte stream: SipHash-1-3
with both keys zero. -/
def hasherFinish (bytes : List Nat) : Nat := sipHash13 0 0 bytes

/-- `str::hash`: the UTF-8 bytes followed by the 0xFF terminator. -/
def strBytes (s : String) : List Nat := s.data.map Char.toNat

/-- `Ipv4Addr::hash`: the four octets in network order (the inner `u32`
written in host little-endian order). -/
def ipv4Bytes (ip : Ipv4) : List Nat := [ip.a, ip.b, ip.c, ip.d]

/-- `u16::hash`: two little-endian bytes. -/
def u16Bytes (n : Nat) : List Nat := [n % 256, n / 256 % 256]

/-- `generate_hash` (src/parser/mod.rs lines 32-46): hash the protocol
name, source address, source port, destination address and destination
port into the hasher, in that order, and finish. -/
def generate_hash (protocol : String) (source : Ipv4) (source_port : Nat)
    (destination : Ipv4) (destination_port : Nat) : Nat :=
  let s : List Nat := []
  let s := s ++ strBytes protocol ++ [255]
  let s := s ++ ipv4Bytes source
  let s := s ++ u16Bytes source_port
  let s := s ++ ipv4Bytes destination
  let s := s ++ u16Bytes destination_port
  hasherFinish s

/-- The `u64 as i64` reinterpretation. -/
def toI64 (n : Nat) : Int :=
  if n < 9223372036854775808 then (n : Int) else (n : Int) - 18446744073709551616

/-- The hash computed in `Parser::parse_ip_connection` (src/parser/mod.rs
lines 183-188): `generate_hash(&protocol.to_string(), ...) as i64`. -/
def parse_ip_connection_hash (protocol : Protocol) (source : Ipv4) (source_port : Nat)
    (destination : Ipv4) (destination_port : Nat) : Int :=
  toI64 (generate_hash protocol.displayStr source source_port destination destination_port)

/-- Modelled from the spec: "the 64-bit hash of the tuple (protocol name
as TCP/UDP, src IPv4 bytes, src port, dst IPv4 bytes, dst port), fed in
that order into a deterministic byte-level hasher, then reinterpreted as a
signed 64-bit integer" — the one-shot hash of the concatenated encoding. -/
def spec_fingerprint (protocol : String) (source : Ipv4) (source_port : Nat)
    (destination : Ipv4) (destination_port : Nat) : Int :=
  toI64 (hasherFinish (strBytes protocol ++ [255] ++ ipv4Bytes source ++
    u16Bytes source_port ++ ipv4Bytes destination ++ u16Bytes destination_port))

/-! ## Agent identity (src/lib.rs lines 205-311)

`populate_config` resolves (name, uuid) with priority config → persisted
tuple file → fresh UUID plus a random name from `names.txt`.  The data
directory is embedded as an association list from file name to contents;
`Uuid::new_v4()` and the random index drawn by `rand::thread_rng().choose`
become explicit arguments.  `Config` keeps the three fields
`populate_config` reads and writes (`directory`, `name`, `uuid`); its
`outputs` and `filters` pass through `.. config` untouched. -/

/-- `NameTuple` (src/lib.rs lines 67-71). -/
structure NameTuple where
  name : Option String
  uuid : Option Uuid
deriving DecidableEq, Repr

/-- Contents of a file in the data directory: either a serialized
`NameTuple` (YAML) or plain text lines. -/
inductive FileContents where
  | tuple (t : NameTuple)
  | text (l : List String)
deriving DecidableEq, Repr

/-- First-match lookup in the data directory (writes shadow older ones). -/
def fsLookup : List (String × FileContents) → String → Option FileContents
  | [], _ => none
  | (n, c) :: t, q => if n = q then some c else fsLookup t q

/-- `fs::write`: replace the file's contents. -/
def fsWrite (fs : List (String × FileContents)) (name : String) (c : FileContents) :
    List (String × FileContents) :=
  (name, c) :: fs

/-- The identity-relevant fields of `enums::Config`. -/
structure Config where
  directory : Option String
  name : Option String
  uuid : Option Uuid
deriving DecidableEq, Repr

/-- The lines of the YAML serialization of a `NameTuple`, as `load_names`
would read them back one by one. -/
def yamlLines (t : NameTuple) : List String :=
  ["---",
   "name: " ++ (match t.name with | some n => n | none => "~"),
   "uuid: " ++ (match t.uuid with | some u => Nat.repr u | none => "~")]

/-- `load_uuid_name_tuple` (src/lib.rs lines 224-242): missing file or
failed YAML parse falls back to the empty tuple. -/
def load_uuid_name_tuple (file : String) (fs : List (String × FileContents)) : NameTuple :=
  match fsLookup fs file with
  | some (.tuple t) => t
  | some (.text _) => ⟨none, none⟩
  | none => ⟨none, none⟩

/-- `load_names` (src/lib.rs lines 205-222): the file's lines, or empty
when the file is missing. -/
def load_names (file : String) (fs : List (String × FileContents)) : List String :=
  match fsLookup fs file with
  | some (.text l) => l
  | some (.tuple t) => yamlLines t
  | none => []

/-- `save_uuid_name_tuple` (src/lib.rs lines 244-255). -/
def save_uuid_name_tuple (file : String) (t : NameTuple)
    (fs : List (String × FileContents)) : List (String × FileContents) :=
  fsWrite fs file (.tuple t)

/-- `populate_config` (src/lib.rs lines 257-311).  `freshUuid` stands for
`Uuid::new_v4()` and `pick` for the random index of
`rand::thread_rng().choose(&names)`.  Note the save goes to
`names_file_name`, exactly as in the source. -/
def populate_config (freshUuid : Uuid) (pick : Nat) (config : Config)
    (fs : List (String × FileContents)) : Config × List (String × FileContents) :=
  let directory := match config.directory with
    | some d => d
    | none => "/tmp"
  let tuple_file_name := directory ++ "/" ++ "/name_tuple.yaml"
  let names_file_name := directory ++ "/" ++ "/names.txt"
  let tuple := load_uuid_name_tuple tuple_file_name fs
  let names := load_names names_file_name fs
  let uuid := match config.uuid with
    | some u => u
    | none =>
      match tuple.uuid with
      | some u => u
      | none => freshUuid
  let name := match config.name with
    | some n => n
    | none =>
      match tuple.name with
      | some n => n
      | none =>
        match names.get? (pick % names.length) with
        | some n => n
        | none => "unknown"
  let fs2 := save_uuid_name_tuple names_file_name ⟨some name, some uuid⟩ fs
  ({ directory := some directory, name := some name, uuid := some uuid }, fs2)

/-- A config with a data directory but no identity set. -/
def unsetConfig : Config := ⟨some "/data", none, none⟩

/-! ### Map lemmas -/

theorem lookupM_removeM_self (m : List (Int × Uuid)) (h : Int) :
    lookupM (removeM m h) h = none := by
  induction m with
  | nil => rfl
  | cons p t ih =>
    obtain ⟨k, v⟩ := p
    by_cases hk : k = h
    · simpa [removeM, hk] using ih
    · simp [removeM, lookupM, hk, ih]

theorem lookupM_removeM_ne (m : List (Int × Uuid)) (h k : Int) (hne : k ≠ h) :
    lookupM (removeM m h) k = lookupM m k := by
  induction m with
  | nil => rfl
  | cons p t ih =>
    obtain ⟨k0, v0⟩ := p
    by_cases hk : k0 = h
    · have hhk : ¬(h = k) := fun hE => hne hE.symm
      simp [removeM, hk, lookupM, hhk, ih]
    · by_cases hkk : k0 = k
      · simp [removeM, hk, lookupM, hkk, hne]
      · simp [removeM, hk, lookupM, hkk, ih]

theorem lookupM_removeM_none (m : List (Int × Uuid)) (h k : Int)
    (hnone : lookupM m k = none) : lookupM (removeM m h) k = none := by
  by_cases hk : k = h
  · simpa [hk] using lookupM_removeM_self m h
  · simpa [lookupM_removeM_ne m h k hk] using hnone

/-- Processing payloads none of which carry hash `H` leaves the binding of
`H` in the correlation map untouched. -/
theorem lookupM_runState_preserved (ps : List Payload) (s : State) (H : Int)
    (hps : ∀ p ∈ ps, payloadHash p ≠ H) :
    lookupM (runState s ps).connections H = lookupM s.connections H := by
  induction ps generalizing s with
  | nil => rfl
  | cons p t ih =>
    have hp : payloadHash p ≠ H := hps p (List.mem_cons_self p t)
    have ht : ∀ q ∈ t, payloadHash q ≠ H := fun q hq => hps q (List.mem_cons_of_mem p hq)
    have step : lookupM ((s.transform p).fst).connections H = lookupM s.connections H := by
      cases p with
      | Open c =>
        have hc : c.hash ≠ H := hp
        simp [State.transform, lookupM, hc, lookupM_removeM_ne _ _ _ (fun hE => hc hE.symm)]
      | Close c =>
        have hc : c.hash ≠ H := hp
        cases hl : lookupM s.connections c.hash with
        | some u =>
          simp [State.transform, hl, lookupM_removeM_ne _ _ _ (fun hE => hc hE.symm)]
        | none =>
          simp [State.transform, hl, lookupM_removeM_ne _ _ _ (fun hE => hc hE.symm)]
    calc lookupM (runState ((s.transform p).fst) t).connections H
        = lookupM ((s.transform p).fst).connections H := ih _ ht
      _ = lookupM s.connections H := step

/-- If no Open in the sequence carries hash `H` and `H` is unbound, it stays
unbound: Closes never insert. -/
theorem lookupM_runState_none (ps : List Payload) (H : Int) :
    ∀ s : State, (∀ c : OpenConnection, Payload.Open c ∈ ps → c.hash ≠ H) →
    lookupM s.connections H = none →
    lookupM (runState s ps).connections H = none := by
  induction ps with
  | nil => intro s _ hnone; simpa [runState] using hnone
  | cons p t ih =>
    intro s hps hnone
    have ht : ∀ c : OpenConnection, Payload.Open c ∈ t → c.hash ≠ H :=
      fun c hc => hps c (List.mem_cons_of_mem p hc)
    have step : lookupM ((s.transform p).fst).connections H = none := by
      cases p with
      | Open c =>
        have hc : c.hash ≠ H := hps c (List.mem_cons_self _ t)
        simp [State.transform, lookupM, hc, lookupM_removeM_none _ _ _ hnone]
      | Close c =>
        cases hl : lookupM s.connections c.hash with
        | some u => simp [State.transform, hl, lookupM_removeM_none _ _ _ hnone]
        | none => simp [State.transform, hl, lookupM_removeM_none _ _ _ hnone]
    exact ih _ ht step

/-- Unfolding `State::transform` on an Open. -/
theorem transform_Open_eq (s : State) (c : OpenConnection) :
    s.transform (.Open c)
      = (⟨(c.hash, c.uuid) :: removeM s.connections c.hash⟩, .Open c) := rfl

/-- Unfolding `State::transform` on a Close whose hash is bound. -/
theorem transform_Close_of_some {s : State} {c : CloseConnection} {u : Uuid}
    (h : lookupM s.connections c.hash = some u) :
    s.transform (.Close c)
      = (⟨removeM s.connections c.hash⟩, .Close { c with uuid := some u }) := by
  simp [State.transform, h]

/-- Unfolding `State::transform` on a Close whose hash is unbound. -/
theorem transform_Close_of_none {s : State} {c : CloseConnection}
    (h : lookupM s.connections c.hash = none) :
    s.transform (.Close c) = (⟨removeM s.connections c.hash⟩, .Close c) := by
  simp [State.transform, h]

/-! ### Claim theorems about the correlator -/

/-- C1: over any sequence of payloads fed to `State::transform` from the
initial state, an Open with hash `H` and uuid `U` followed (with no
intervening payload of hash `H`) by a Close with hash `H` makes the Close
come out with `uuid = some U`; and a Close whose hash was never carried by
a prior Open comes out with `uuid = none` (unchanged). -/
theorem state_correlation_trace :
    (∀ (pre mid : List Payload) (oc : OpenConnection) (cc : CloseConnection),
      cc.hash = oc.hash →
      (∀ p ∈ mid, payloadHash p ≠ oc.hash) →
      ((runState ((runState State.init pre).transform (.Open oc)).fst mid).transform
          (.Close cc)).snd = .Close { cc with uuid := some oc.uuid }) ∧
    (∀ (ps : List Payload) (cc : CloseConnection),
      (∀ c : OpenConnection, Payload.Open c ∈ ps → c.hash ≠ cc.hash) →
      cc.uuid = none →
      ((runState State.init ps).transform (.Close cc)).snd = .Close cc) := by
  constructor
  · intro pre mid oc cc hh hmid
    have h1 : lookupM (((runState State.init pre).transform (.Open oc)).fst).connections
        oc.hash = some oc.uuid := by
      rw [transform_Open_eq]
      simp [lookupM]
    have h2 : lookupM (runState ((runState State.init pre).transform (.Open oc)).fst
        mid).connections cc.hash = some oc.uuid := by
      rw [hh, lookupM_runState_preserved mid _ oc.hash hmid]; exact h1
    rw [transform_Close_of_some h2]
  · intro ps cc hps _
    have h2 : lookupM (runState State.init ps).connections cc.hash = none :=
      lookupM_runState_none ps cc.hash State.init hps rfl
    rw [transform_Close_of_none h2]

/-- C1 witness: concrete runs exercising both halves of the claim. -/
theorem state_correlation_trace_witness :
    (((runState ((runState State.init []).transform (.Open (sampleOpen 1 42))).fst
        []).transform (.Close (sampleClose 1))).snd
      = .Close { sampleClose 1 with uuid := some 42 }) ∧
    ((runState State.init [Payload.Open (sampleOpen 2 5)]).transform
        (.Close (sampleClose 1))).snd = .Close (sampleClose 1) :=
  ⟨state_correlation_trace.1 [] [] (sampleOpen 1 42) (sampleClose 1) rfl (by simp),
   state_correlation_trace.2 [Payload.Open (sampleOpen 2 5)] (sampleClose 1)
    (by
      intro c hc
      simp only [List.mem_singleton, Payload.Open.injEq] at hc
      subst hc
      decide) rfl⟩

/-- C8: `State::transform` on an Open returns the payload unchanged and
inserts `(hash → uuid)`, leaving every other key of the correlation map
untouched; on a Close whose hash is bound to `u` it returns the Close with
only its uuid replaced by `u`, unbinds the hash, and leaves every other key
untouched. -/
theorem transform_frame :
    (∀ (s : State) (c : OpenConnection),
      (s.transform (.Open c)).snd = .Open c ∧
      lookupM ((s.transform (.Open c)).fst).connections c.hash = some c.uuid ∧
      (∀ h : Int, h ≠ c.hash →
        lookupM ((s.transform (.Open c)).fst).connections h = lookupM s.connections h)) ∧
    (∀ (s : State) (c : CloseConnection) (u : Uuid),
      lookupM s.connections c.hash = some u →
      (s.transform (.Close c)).snd = .Close { c with uuid := some u } ∧
      lookupM ((s.transform (.Close c)).fst).connections c.hash = none ∧
      (∀ h : Int, h ≠ c.hash →
        lookupM ((s.transform (.Close c)).fst).connections h = lookupM s.connections h)) := by
  constructor
  · intro s c
    refine ⟨rfl, by rw [transform_Open_eq]; simp [lookupM], ?_⟩
    intro h hne
    rw [transform_Open_eq]
    have hch : ¬(c.hash = h) := fun hE => hne hE.symm
    simp [lookupM, hch, lookupM_removeM_ne _ _ _ hne]
  · intro s c u hu
    refine ⟨by rw [transform_Close_of_some hu], ?_, ?_⟩
    · rw [transform_Close_of_some hu]
      exact lookupM_removeM_self _ _
    · intro h hne
      rw [transform_Close_of_some hu]
      exact lookupM_removeM_ne _ _ _ hne

/-- C8 witness: both halves applied at concrete states and payloads. -/
theorem transform_frame_witness :
    ((State.mk []).transform (.Open (sampleOpen 1 42))).snd = .Open (sampleOpen 1 42) ∧
    ((State.mk [(1, 42)]).transform (.Close (sampleClose 1))).snd
      = .Close { sampleClose 1 with uuid := some 42 } :=
  ⟨(transform_frame.1 (State.mk []) (sampleOpen 1 42)).1,
   (transform_frame.2 (State.mk [(1, 42)]) (sampleClose 1) 42 rfl).1⟩

/-- C9: correlation is one-shot.  After an Open with hash `H` and a Close
with hash `H`, the map no longer binds `H`, so a further Close with hash
`H` passes through unchanged; and transforming a Close never inserts an
entry. -/
theorem state_one_shot :
    (∀ (s : State) (oc : OpenConnection) (cc : CloseConnection),
      cc.hash = oc.hash →
      lookupM ((((s.transform (.Open oc)).fst).transform (.Close cc)).fst).connections
        oc.hash = none) ∧
    (∀ (s : State) (oc : OpenConnection) (cc cc2 : CloseConnection),
      cc.hash = oc.hash → cc2.hash = oc.hash →
      (((((s.transform (.Open oc)).fst).transform (.Close cc)).fst).transform
          (.Close cc2)).snd = .Close cc2) ∧
    (∀ (s : State) (cc : CloseConnection) (h : Int),
      lookupM s.connections h = none →
      lookupM ((s.transform (.Close cc)).fst).connections h = none) := by
  have key : ∀ (s : State) (oc : OpenConnection) (cc : CloseConnection),
      cc.hash = oc.hash →
      lookupM ((((s.transform (.Open oc)).fst).transform (.Close cc)).fst).connections
        oc.hash = none := by
    intro s oc cc hh
    have h1 : lookupM ((s.transform (.Open oc)).fst).connections cc.hash = some oc.uuid := by
      rw [transform_Open_eq]
      simp [lookupM, hh]
    rw [transform_Close_of_some h1, ← hh]
    exact lookupM_removeM_self _ _
  refine ⟨key, ?_, ?_⟩
  · intro s oc cc cc2 hh hh2
    have h3 : lookupM ((((s.transform (.Open oc)).fst).transform (.Close cc)).fst).connections
        cc2.hash = none := by rw [hh2]; exact key s oc cc hh
    rw [transform_Close_of_none h3]
  · intro s cc h hnone
    cases hl : lookupM s.connections cc.hash with
    | some u =>
      rw [transform_Close_of_some hl]
      exact lookupM_removeM_none _ _ _ hnone
    | none =>
      rw [transform_Close_of_none hl]
      exact lookupM_removeM_none _ _ _ hnone

/-- C9 witness: all three parts applied at concrete states and payloads. -/
theorem state_one_shot_witness :
    lookupM (((((State.mk []).transform (.Open (sampleOpen 1 42))).fst).transform
        (.Close (sampleClose 1))).fst).connections 1 = none ∧
    ((((((State.mk []).transform (.Open (sampleOpen 1 42))).fst).transform
        (.Close (sampleClose 1))).fst).transform (.Close (sampleClose 1))).snd
      = .Close (sampleClose 1) ∧
    lookupM (((State.mk []).transform (.Close (sampleClose 1))).fst).connections 1 = none :=
  ⟨state_one_shot.1 (State.mk []) (sampleOpen 1 42) (sampleClose 1) rfl,
   state_one_shot.2.1 (State.mk []) (sampleOpen 1 42) (sampleClose 1) (sampleClose 1) rfl rfl,
   state_one_shot.2.2 (State.mk []) (sampleClose 1) 1 rfl⟩

/-! ### Set lemmas for the filter's dropped-hash memory -/

theorem mem_insertS_self (s : List Int) (h : Int) : h ∈ insertS s h := by
  by_cases hm : h ∈ s <;> simp [insertS, hm]

theorem mem_insertS_of_mem {s : List Int} {a : Int} (h : Int) (ha : a ∈ s) :
    a ∈ insertS s h := by
  by_cases hm : h ∈ s <;> simp [insertS, hm, ha]

theorem mem_removeS_of_ne {s : List Int} {a h : Int} (ha : a ∈ s) (hne : a ≠ h) :
    a ∈ removeS s h := by
  induction s with
  | nil => cases ha
  | cons b t ih =>
    by_cases hb : b = h
    · subst hb
      rcases List.mem_cons.mp ha with h1 | h1
      · exact absurd h1 hne
      · simpa [removeS] using h1
    · rcases List.mem_cons.mp ha with h1 | h1
      · simp [removeS, hb, h1]
      · simp [removeS, hb, ih h1]

theorem mem_of_mem_removeS {s : List Int} {a h : Int} (ha : a ∈ removeS s h) : a ∈ s := by
  induction s with
  | nil => simp [removeS] at ha
  | cons b t ih =>
    by_cases hb : b = h
    · rw [removeS, if_pos hb] at ha
      exact List.mem_cons_of_mem _ ha
    · rw [removeS, if_neg hb] at ha
      rcases List.mem_cons.mp ha with h1 | h1
      · simp [h1]
      · exact List.mem_cons_of_mem _ (ih h1)

theorem not_mem_removeS_self {s : List Int} (hnd : s.Nodup) (h : Int) :
    h ∉ removeS s h := by
  induction s with
  | nil => simp [removeS]
  | cons b t ih =>
    rcases List.nodup_cons.mp hnd with ⟨hb, ht⟩
    by_cases hbh : b = h
    · subst hbh
      simpa [removeS] using hb
    · rw [removeS, if_neg hbh]
      intro hmem
      rcases List.mem_cons.mp hmem with h1 | h1
      · exact hbh h1.symm
      · exact ih ht h1

theorem nodup_insertS {s : List Int} (hnd : s.Nodup) (h : Int) : (insertS s h).Nodup := by
  by_cases hm : h ∈ s
  · simpa [insertS, hm] using hnd
  · simp [insertS, hm, List.nodup_cons, hnd]

theorem nodup_removeS {s : List Int} (hnd : s.Nodup) (h : Int) : (removeS s h).Nodup := by
  induction s with
  | nil => simp [removeS]
  | cons b t ih =>
    rcases List.nodup_cons.mp hnd with ⟨hb, ht⟩
    by_cases hbh : b = h
    · simpa [removeS, hbh] using ht
    · rw [removeS, if_neg hbh]
      exact List.nodup_cons.mpr ⟨fun hmem => hb (mem_of_mem_removeS hmem), ih ht⟩

/-! ### Filter lemmas -/

/-- `Filter::apply` on an Open, characterized by the drop predicate. -/
theorem apply_Open_eq (f : Filter) (c : OpenConnection) :
    f.apply (.Open c) =
      if dropsOpen f c then (true, { f with filtered := insertS f.filtered c.hash })
      else (false, f) := by
  cases h1 : (f.config.non_process_connections && c.program_details.isNone) <;>
    cases h2 : (f.config.notrust_track_connections &&
      (match c.program_details with | some d => d.pid == f.pid | none => false)) <;>
    cases h3 : (f.config.dns_requests &&
      (c.destination_port == 53 || c.destination_port == 5353)) <;>
    simp [Filter.apply, dropsOpen, h1, h2, h3]

/-- `Filter::apply` on a Close whose hash is in the dropped set. -/
theorem apply_Close_of_mem {f : Filter} {c : CloseConnection} (hm : c.hash ∈ f.filtered) :
    f.apply (.Close c) = (true, { f with filtered := removeS f.filtered c.hash }) := by
  simp [Filter.apply, hm]

/-- `Filter::apply` on a Close whose hash is absent from the dropped set. -/
theorem apply_Close_of_not_mem {f : Filter} {c : CloseConnection}
    (hm : c.hash ∉ f.filtered) : f.apply (.Close c) = (false, f) := by
  simp [Filter.apply, hm]

/-- A dropped Open leaves its hash in the set. -/
theorem mem_filtered_of_drop {f : Filter} {c : OpenConnection}
    (hd : (f.apply (.Open c)).fst = true) :
    c.hash ∈ ((f.apply (.Open c)).snd).filtered := by
  rw [apply_Open_eq] at hd ⊢
  by_cases h : dropsOpen f c
  · simp [h, mem_insertS_self]
  · rw [if_neg h] at hd
    cases hd

/-- Applying an Open never removes a hash from the set. -/
theorem mem_filtered_apply_Open {f : Filter} {H : Int} (hm : H ∈ f.filtered)
    (c : OpenConnection) : H ∈ ((f.apply (.Open c)).snd).filtered := by
  rw [apply_Open_eq]
  by_cases h : dropsOpen f c
  · simp [h, mem_insertS_of_mem _ hm]
  · simp [h, hm]

/-- Applying a Close with a different hash keeps `H` in the set. -/
theorem mem_filtered_apply_Close {f : Filter} {H : Int} (hm : H ∈ f.filtered)
    {c : CloseConnection} (hne : c.hash ≠ H) :
    H ∈ ((f.apply (.Close c)).snd).filtered := by
  by_cases hc : c.hash ∈ f.filtered
  · rw [apply_Close_of_mem hc]
    exact mem_removeS_of_ne hm (fun hE => hne hE.symm)
  · rw [apply_Close_of_not_mem hc]
    exact hm

/-- A hash stays in the dropped set across a run containing no Close that
carries it. -/
theorem mem_filtered_runFilter (ps : List Payload) :
    ∀ f : Filter, ∀ H : Int, H ∈ f.filtered →
    (∀ c : CloseConnection, Payload.Close c ∈ ps → c.hash ≠ H) →
    H ∈ (runFilter f ps).filtered := by
  induction ps with
  | nil => intro f H hm _; exact hm
  | cons p t ih =>
    intro f H hm hps
    have ht : ∀ c : CloseConnection, Payload.Close c ∈ t → c.hash ≠ H :=
      fun c hc => hps c (List.mem_cons_of_mem p hc)
    have step : H ∈ ((f.apply p).snd).filtered := by
      cases p with
      | Open c => exact mem_filtered_apply_Open hm c
      | Close c => exact mem_filtered_apply_Close hm (hps c (List.mem_cons_self _ t))
    exact ih _ H step ht

/-- `Filter::apply` preserves duplicate-freedom of the dropped set. -/
theorem nodup_apply {f : Filter} (hnd : f.filtered.Nodup) (p : Payload) :
    ((f.apply p).snd).filtered.Nodup := by
  cases p with
  | Open c =>
    rw [apply_Open_eq]
    by_cases h : dropsOpen f c
    · simpa [h] using nodup_insertS hnd c.hash
    · simpa [h] using hnd
  | Close c =>
    by_cases hc : c.hash ∈ f.filtered
    · rw [apply_Close_of_mem hc]
      exact nodup_removeS hnd c.hash
    · rw [apply_Close_of_not_mem hc]
      exact hnd

/-- Runs from a duplicate-free dropped set keep it duplicate-free. -/
theorem nodup_runFilter (ps : List Payload) :
    ∀ f : Filter, f.filtered.Nodup → (runFilter f ps).filtered.Nodup := by
  induction ps with
  | nil => intro f hnd; exact hnd
  | cons p t ih => intro f hnd; exact ih _ (nodup_apply hnd p)

/-! ### Claim theorems about the filter -/

/-- C2 counterexample: with `non_process_connections` on, an Open with hash
1 is dropped, another Open with hash 2 is dropped in between, and the next
Close with hash 1 is dropped — but the dropped-hash set ends with size 1,
not the size 0 it had before the first Open was dropped.  The claim as
stated is false. -/
theorem filter_symmetry_counterexample :
    (sampleFilter.apply (.Open (sampleOpen 1 42))).fst = true ∧
    ((runFilter sampleFilter [.Open (sampleOpen 1 42), .Open (sampleOpen 2 43)]).apply
        (.Close (sampleClose 1))).fst = true ∧
    ((runFilter sampleFilter [.Open (sampleOpen 1 42), .Open (sampleOpen 2 43)]).apply
        (.Close (sampleClose 1))).snd.filtered.length ≠ sampleFilter.filtered.length := by
  refine ⟨by decide, by decide, by decide⟩

/-- C2 (amended): whenever `Filter::apply` drops an Open, the next Close
with the same hash — none in between carrying that hash — is also dropped,
and dropping it removes the hash from the dropped set (the set after the
Close is the set before it minus that hash); a Close whose hash is absent
from the set passes through with the set unchanged. -/
theorem filter_open_close_symmetry :
    (∀ (f : Filter) (oc : OpenConnection) (mid : List Payload) (cc : CloseConnection),
      cc.hash = oc.hash →
      (f.apply (.Open oc)).fst = true →
      (∀ c : CloseConnection, Payload.Close c ∈ mid → c.hash ≠ oc.hash) →
      ((runFilter ((f.apply (.Open oc)).snd) mid).apply (.Close cc)).fst = true ∧
      (((runFilter ((f.apply (.Open oc)).snd) mid).apply (.Close cc)).snd).filtered
        = removeS (runFilter ((f.apply (.Open oc)).snd) mid).filtered oc.hash) ∧
    (∀ (f : Filter) (cc : CloseConnection),
      cc.hash ∉ f.filtered → f.apply (.Close cc) = (false, f)) := by
  constructor
  · intro f oc mid cc hh hd hmid
    have h1 : oc.hash ∈ ((f.apply (.Open oc)).snd).filtered := mem_filtered_of_drop hd
    have h2 : oc.hash ∈ (runFilter ((f.apply (.Open oc)).snd) mid).filtered :=
      mem_filtered_runFilter mid _ oc.hash h1 hmid
    have h3 : cc.hash ∈ (runFilter ((f.apply (.Open oc)).snd) mid).filtered := by
      rw [hh]; exact h2
    rw [apply_Close_of_mem h3]
    exact ⟨rfl, by simp [hh]⟩
  · intro f cc hm
    exact apply_Close_of_not_mem hm

/-- C2 witness: the amended claim applied to a concrete dropped Open, its
Close, and a Close whose hash was never dropped. -/
theorem filter_open_close_symmetry_witness :
    (((runFilter ((sampleFilter.apply (.Open (sampleOpen 1 42))).snd) []).apply
        (.Close (sampleClose 1))).fst = true ∧
      (((runFilter ((sampleFilter.apply (.Open (sampleOpen 1 42))).snd) []).apply
          (.Close (sampleClose 1))).snd).filtered
        = removeS (runFilter ((sampleFilter.apply (.Open (sampleOpen 1 42))).snd)
            []).filtered (sampleOpen 1 42).hash) ∧
    sampleFilter.apply (.Close (sampleClose 5)) = (false, sampleFilter) :=
  ⟨filter_open_close_symmetry.1 sampleFilter (sampleOpen 1 42) [] (sampleClose 1)
      rfl (by decide) (by simp),
   filter_open_close_symmetry.2 sampleFilter (sampleClose 5) (by decide)⟩

/-- C10: the dropped-hash memory has set semantics: after two Opens with
the same hash are both dropped, the hash is stored exactly once, so the
next Close with that hash is dropped and a further Close with the same
hash passes through with the filter unchanged. -/
theorem filter_set_semantics :
    ∀ (cfg : FiltersConfig) (pid : Nat) (pre : List Payload)
      (oc1 oc2 : OpenConnection) (cc1 cc2 : CloseConnection),
      oc2.hash = oc1.hash → cc1.hash = oc1.hash → cc2.hash = oc1.hash →
      ((runFilter (Filter.new cfg pid) pre).apply (.Open oc1)).fst = true →
      ((((runFilter (Filter.new cfg pid) pre).apply (.Open oc1)).snd).apply
          (.Open oc2)).fst = true →
      ((((((runFilter (Filter.new cfg pid) pre).apply (.Open oc1)).snd).apply
          (.Open oc2)).snd).filtered.count oc1.hash = 1) ∧
      (((((((runFilter (Filter.new cfg pid) pre).apply (.Open oc1)).snd).apply
          (.Open oc2)).snd).apply (.Close cc1)).fst = true) ∧
      ((((((((runFilter (Filter.new cfg pid) pre).apply (.Open oc1)).snd).apply
          (.Open oc2)).snd).apply (.Close cc1)).snd).apply (.Close cc2)
        = (false, (((((((runFilter (Filter.new cfg pid) pre).apply
            (.Open oc1)).snd).apply (.Open oc2)).snd).apply (.Close cc1)).snd))) := by
  intro cfg pid pre oc1 oc2 cc1 cc2 h21 hc1 hc2 hd1 hd2
  have hnd0 : (runFilter (Filter.new cfg pid) pre).filtered.Nodup :=
    nodup_runFilter pre _ (by simp [Filter.new])
  have hnd2 : (((((runFilter (Filter.new cfg pid) pre).apply (.Open oc1)).snd).apply
      (.Open oc2)).snd).filtered.Nodup :=
    nodup_apply (nodup_apply hnd0 _) _
  have hm2 : oc1.hash ∈ (((((runFilter (Filter.new cfg pid) pre).apply
      (.Open oc1)).snd).apply (.Open oc2)).snd).filtered := by
    have hmem := mem_filtered_of_drop hd2
    rw [h21] at hmem
    exact hmem
  have hcount := List.count_eq_one_of_mem hnd2 hm2
  have hm2c : cc1.hash ∈ (((((runFilter (Filter.new cfg pid) pre).apply
      (.Open oc1)).snd).apply (.Open oc2)).snd).filtered := by
    rw [hc1]; exact hm2
  have happly := apply_Close_of_mem hm2c
  have hnot : cc2.hash ∉ ((((((runFilter (Filter.new cfg pid) pre).apply
      (.Open oc1)).snd).apply (.Open oc2)).snd).apply (.Close cc1)).snd.filtered := by
    rw [happly, hc2]
    simp only []
    rw [hc1]
    exact not_mem_removeS_self hnd2 oc1.hash
  exact ⟨hcount, by rw [happly], by rw [apply_Close_of_not_mem hnot]⟩

/-- C10 witness: two concrete no-program Opens with hash 1 both dropped,
then one Close dropped and a second Close passed through. -/
theorem filter_set_semantics_witness :
    ((((sampleFilter.apply (.Open (sampleOpen 1 42))).snd).apply
        (.Open (sampleOpen 1 43))).snd).filtered.count 1 = 1 ∧
    (((((sampleFilter.apply (.Open (sampleOpen 1 42))).snd).apply
        (.Open (sampleOpen 1 43))).snd).apply (.Close (sampleClose 1))).fst = true ∧
    ((((((sampleFilter.apply (.Open (sampleOpen 1 42))).snd).apply
        (.Open (sampleOpen 1 43))).snd).apply (.Close (sampleClose 1))).snd).apply
        (.Close (sampleClose 1))
      = (false, (((((sampleFilter.apply (.Open (sampleOpen 1 42))).snd).apply
          (.Open (sampleOpen 1 43))).snd).apply (.Close (sampleClose 1))).snd) := by
  have h := filter_set_semantics ⟨true, false, false⟩ 99 [] (sampleOpen 1 42)
    (sampleOpen 1 43) (sampleClose 1) (sampleClose 1) rfl rfl rfl (by decide) (by decide)
  exact h

/-! ### Claim theorem about the conntrack ingester -/

/-- C7: for every received netlink message, the low byte of `nlmsg_type`
equal to NEW with `NLM_F_CREATE` set decodes to `State::New`; NEW without
the flag decodes to `State::Unknown`; DELETE decodes to `State::Destroy`;
anything else decodes to `State::Unknown`. -/
theorem conntrack_state_decoding :
    ∀ ty flags : Nat,
      (ty &&& 0xFF = CTNL_MSG_NEW → flags &&& NLM_F_CREATE ≠ 0 →
        decodeState ty flags = Enums.State.New) ∧
      (ty &&& 0xFF = CTNL_MSG_NEW → flags &&& NLM_F_CREATE = 0 →
        decodeState ty flags = Enums.State.Unknown) ∧
      (ty &&& 0xFF = CTNL_MSG_DELETE → decodeState ty flags = Enums.State.Destroy) ∧
      (ty &&& 0xFF ≠ CTNL_MSG_NEW → ty &&& 0xFF ≠ CTNL_MSG_DELETE →
        decodeState ty flags = Enums.State.Unknown) := by
  intro ty flags
  refine ⟨?_, ?_, ?_, ?_⟩
  · intro h hf
    simp [decodeState, h, hf]
  · intro h hf
    simp [decodeState, h, hf]
  · intro h
    have hne : ty &&& 0xFF ≠ CTNL_MSG_NEW := by
      rw [h]
      decide
    rw [decodeState, if_neg hne, if_pos h]
  · intro h1 h2
    simp [decodeState, h1, h2]

/-- C7 witness: the four cases at concrete message types and flags. -/
theorem conntrack_state_decoding_witness :
    decodeState 0x100 0x400 = Enums.State.New ∧
    decodeState 0 0 = Enums.State.Unknown ∧
    decodeState 2 0 = Enums.State.Destroy ∧
    decodeState 5 0x400 = Enums.State.Unknown :=
  ⟨(conntrack_state_decoding 0x100 0x400).1 (by decide) (by decide),
   (conntrack_state_decoding 0 0).2.1 (by decide) (by decide),
   (conntrack_state_decoding 2 0).2.2.1 (by decide),
   (conntrack_state_decoding 5 0x400).2.2.2 (by decide) (by decide)⟩

/-! ### Socket-table reader lemmas -/

/-- If some token makes its parse step fail for every state, the whole
line-parsing loop fails. -/
theorem parseLoop_error (t : List Char) :
    ∀ (ts : List (List Char)) (i c0 : Nat), ts.get? i = some t →
    (∀ s : SocketConnection, parseStep (c0 + i) t s = .error ()) →
    ∀ s : SocketConnection, parseLoop ts c0 s = .error () := by
  intro ts
  induction ts with
  | nil => intro i c0 hget; simp [List.get?] at hget
  | cons x rest ih =>
    intro i c0 hget hstep s
    cases i with
    | zero =>
      have hx : x = t := by simpa [List.get?] using hget
      subst hx
      have hx0 := hstep s
      rw [Nat.add_zero] at hx0
      simp [parseLoop, hx0]
    | succ j =>
      have hget2 : rest.get? j = some t := by simpa [List.get?] using hget
      have hstep2 : ∀ s : SocketConnection, parseStep (c0 + 1 + j) t s = .error () := by
        intro s2
        have hE := hstep s2
        rwa [show c0 + (j + 1) = c0 + 1 + j by omega] at hE
      cases hps : parseStep c0 x s with
      | ok s2 =>
        simp only [parseLoop, hps]
        exact ih j (c0 + 1) hget2 hstep2 s2
      | error e =>
        simp [parseLoop, hps]

/-- A line that fails to parse aborts the whole refresh, wherever it sits
after the header. -/
theorem updateAux_error (line : String) (hline : parse_connection line = .error ()) :
    ∀ (l1 l2 : List String) (n : Nat) (m : List ((Ipv4 × Nat) × SocketConnection)),
    n ≠ 0 → updateAux (l1 ++ line :: l2) n m = .error () := by
  intro l1
  induction l1 with
  | nil =>
    intro l2 n m hn
    simp [updateAux, hn, hline]
  | cons x rest ih =>
    intro l2 n m hn
    rw [List.cons_append]
    simp only [updateAux]
    rw [if_neg hn]
    cases hp : parse_connection x with
    | ok c => exact ih l2 (n + 1) _ (by omega)
    | error e =>
      cases e
      rfl

/-- A parse step other than the two endpoint columns never changes the
local endpoint fields. -/
theorem parseStep_preserves_local {n : Nat} (hn : n ≠ 1) (x : List Char)
    (s s2 : SocketConnection) (h : parseStep n x s = .ok s2) :
    s2.local_address = s.local_address ∧ s2.local_port = s.local_port := by
  unfold parseStep at h
  rw [if_neg hn] at h
  repeat' split at h
  all_goals
    first
    | exact Except.noConfusion h
    | (injection h with h
       subst h
       exact ⟨rfl, rfl⟩)

/-- Unfolding one successful step of the line-parsing loop. -/
theorem parseLoop_cons_ok {n : Nat} {x : List Char} {s s2 : SocketConnection}
    (h : parseStep n x s = .ok s2) (t : List (List Char)) :
    parseLoop (x :: t) n s = parseLoop t (n + 1) s2 := by
  simp only [parseLoop, h]

/-- Once past the endpoint columns, the loop preserves the local endpoint
fields. -/
theorem parseLoop_preserves_local :
    ∀ (ts : List (List Char)) (n : Nat) (s c : SocketConnection), 2 ≤ n →
    parseLoop ts n s = .ok c →
    c.local_address = s.local_address ∧ c.local_port = s.local_port := by
  intro ts
  induction ts with
  | nil =>
    intro n s c _ h
    simp only [parseLoop] at h
    injection h with h
    subst h
    exact ⟨rfl, rfl⟩
  | cons x rest ih =>
    intro n s c hn h
    simp only [parseLoop] at h
    cases hps : parseStep n x s with
    | ok s2 =>
      rw [hps] at h
      have hl := ih (n + 1) s2 c (by omega) h
      have hsl := parseStep_preserves_local (show n ≠ 1 by omega) x s s2 hps
      exact ⟨hl.1.trans hsl.1, hl.2.trans hsl.2⟩
    | error e =>
      rw [hps] at h
      exact Except.noConfusion h

/-! ### Claim theorems about the socket-table reader -/

/-- C5 counterexample: a row whose local-address column lacks a colon is
not skipped — `parse_connection` succeeds with the default endpoint
127.0.0.1:0 and `ProcChomper::update` inserts two entries derived from
that row (its inode 1227937 is the row's), so the claim that no entry
derived from the line reaches the map is false. -/
theorem proc_skip_counterexample :
    ProcChomper.update ["sl", noColonLine] =
      .ok [((⟨172, 16, 144, 1⟩, 54645), noColonConn),
           ((⟨127, 0, 0, 1⟩, 0), noColonConn)] ∧
    lookupK [((⟨172, 16, 144, 1⟩, 54645), noColonConn),
             ((⟨127, 0, 0, 1⟩, 0), noColonConn)] (⟨127, 0, 0, 1⟩, 0)
      = some noColonConn :=
  ⟨rfl, rfl⟩

/-- C5 (amended): a non-decimal uid (column 7) or inode (column 9) is
fatal to the whole refresh; a line whose local-address column lacks a
colon is *not* skipped: it parses with the default endpoint 127.0.0.1:0
and the row is still inserted into the map under both its endpoints. -/
theorem proc_refresh_behavior :
    (∀ (header line : String) (l1 l2 : List String) (t : List Char),
      (tokens line.data).get? 7 = some t →
      from_str_radix 10 65536 t = none →
      ProcChomper.update (header :: l1 ++ line :: l2) = .error ()) ∧
    (∀ (header line : String) (l1 l2 : List String) (t : List Char),
      (tokens line.data).get? 9 = some t →
      from_str_radix 10 4294967296 t = none →
      ProcChomper.update (header :: l1 ++ line :: l2) = .error ()) ∧
    (∀ (line : String) (t : List Char) (c : SocketConnection),
      (tokens line.data).get? 1 = some t →
      split_address t = none →
      parse_connection line = .ok c →
      c.local_address = ⟨127, 0, 0, 1⟩ ∧ c.local_port = 0) ∧
    (∀ (header line : String) (c : SocketConnection),
      parse_connection line = .ok c →
      ProcChomper.update [header, line] =
        .ok [((c.remote_address, c.remote_port), c),
             ((c.local_address, c.local_port), c)]) := by
  have fatal : ∀ (header line : String) (l1 l2 : List String),
      parse_connection line = .error () →
      ProcChomper.update (header :: l1 ++ line :: l2) = .error () := by
    intro header line l1 l2 hpc
    unfold ProcChomper.update
    have hskip : updateAux (header :: (l1 ++ line :: l2)) 0 [] =
        updateAux (l1 ++ line :: l2) 1 [] := by simp [updateAux]
    exact hskip.trans (updateAux_error line hpc l1 l2 1 [] one_ne_zero)
  refine ⟨?_, ?_, ?_, ?_⟩
  · intro header line l1 l2 t hget hfail
    have hstep : ∀ s : SocketConnection, parseStep (0 + 7) t s = .error () := by
      intro s
      simp [parseStep, hfail]
    exact fatal header line l1 l2
      (parseLoop_error t (tokens line.data) 7 0 hget hstep defaultConnection)
  · intro header line l1 l2 t hget hfail
    have hstep : ∀ s : SocketConnection, parseStep (0 + 9) t s = .error () := by
      intro s
      simp [parseStep, hfail]
    exact fatal header line l1 l2
      (parseLoop_error t (tokens line.data) 9 0 hget hstep defaultConnection)
  · intro line t c hget hsp hok
    obtain ⟨a, ts1, hts⟩ : ∃ a ts1, tokens line.data = a :: ts1 := by
      cases hT : tokens line.data with
      | nil => rw [hT] at hget; simp [List.get?] at hget
      | cons a ts1 => exact ⟨a, ts1, rfl⟩
    rw [hts] at hget
    obtain ⟨b, ts2, hts1⟩ : ∃ b ts2, ts1 = b :: ts2 := by
      cases hT : ts1 with
      | nil => rw [hT] at hget; simp [List.get?] at hget
      | cons b ts2 => exact ⟨b, ts2, rfl⟩
    rw [hts1] at hget
    have hb : b = t := by simpa [List.get?] using hget
    subst hb
    unfold parse_connection at hok
    rw [hts, hts1] at hok
    have h0 : parseStep 0 a defaultConnection = .ok defaultConnection := by
      simp [parseStep]
    have h1 : parseStep (0 + 1) b defaultConnection = .ok defaultConnection := by
      simp [parseStep, hsp]
    rw [parseLoop_cons_ok h0, parseLoop_cons_ok h1] at hok
    exact parseLoop_preserves_local ts2 (0 + 1 + 1) defaultConnection c (by omega) hok
  · intro header line c hok
    simp [ProcChomper.update, updateAux, hok]

/-- C5 witness: a bad uid and a bad inode each abort a concrete refresh; a
concrete colon-less row parses with the default local endpoint; a parsed
row is inserted under both endpoints. -/
theorem proc_refresh_behavior_witness :
    ProcChomper.update ["sl", badUidLine] = .error () ∧
    ProcChomper.update ["sl", badInodeLine] = .error () ∧
    (noColonConn.local_address = ⟨127, 0, 0, 1⟩ ∧ noColonConn.local_port = 0) ∧
    ProcChomper.update ["sl", testLine] =
      .ok [((testConn.remote_address, testConn.remote_port), testConn),
           ((testConn.local_address, testConn.local_port), testConn)] :=
  ⟨proc_refresh_behavior.1 "sl" badUidLine [] [] ("X".data) rfl rfl,
   proc_refresh_behavior.2.1 "sl" badInodeLine [] [] ("Y".data) rfl rfl,
   proc_refresh_behavior.2.2.1 noColonLine ("669010AC0016".data) noColonConn rfl rfl rfl,
   proc_refresh_behavior.2.2.2 "sl" testLine testConn rfl⟩

/-- C3: the fingerprint is a function of exactly the 5-tuple, fed in order
into the byte-level hasher: the parser's `generate_hash(...) as i64` equals
the one-shot hash of the ordered byte encoding, and identical inputs give
identical outputs. -/
theorem generate_hash_deterministic :
    (∀ (p : Protocol) (s : Ipv4) (sp : Nat) (d : Ipv4) (dp : Nat),
      parse_ip_connection_hash p s sp d dp = spec_fingerprint p.displayStr s sp d dp) ∧
    (∀ (p1 p2 : String) (s1 s2 : Ipv4) (sp1 sp2 : Nat) (d1 d2 : Ipv4) (dp1 dp2 : Nat),
      p1 = p2 → s1 = s2 → sp1 = sp2 → d1 = d2 → dp1 = dp2 →
      generate_hash p1 s1 sp1 d1 dp1 = generate_hash p2 s2 sp2 d2 dp2) := by
  constructor
  · intro p s sp d dp
    simp [parse_ip_connection_hash, spec_fingerprint, generate_hash, List.append_assoc]
  · intro p1 p2 s1 s2 sp1 sp2 d1 d2 dp1 dp2 h1 h2 h3 h4 h5
    rw [h1, h2, h3, h4, h5]

/-- C3 witness: both halves at a concrete 5-tuple. -/
theorem generate_hash_deterministic_witness :
    parse_ip_connection_hash Protocol.TCP ⟨127, 0, 0, 1⟩ 22 ⟨127, 0, 0, 1⟩ 22
      = spec_fingerprint "TCP" ⟨127, 0, 0, 1⟩ 22 ⟨127, 0, 0, 1⟩ 22 ∧
    generate_hash "TCP" ⟨127, 0, 0, 1⟩ 22 ⟨127, 0, 0, 1⟩ 22
      = generate_hash "TCP" ⟨127, 0, 0, 1⟩ 22 ⟨127, 0, 0, 1⟩ 22 :=
  ⟨generate_hash_deterministic.1 Protocol.TCP ⟨127, 0, 0, 1⟩ 22 ⟨127, 0, 0, 1⟩ 22,
   generate_hash_deterministic.2 "TCP" "TCP" ⟨127, 0, 0, 1⟩ ⟨127, 0, 0, 1⟩ 22 22
     ⟨127, 0, 0, 1⟩ ⟨127, 0, 0, 1⟩ 22 22 rfl rfl rfl rfl rfl⟩

/-- C4 (code bug): identity resolution is not idempotent.  On an empty
data directory with no identity in the config, the first run resolves
(unknown, freshUuid₁) but saves the tuple to `names.txt`
(`save_uuid_name_tuple(&names_file_name, ...)`), leaving
`name_tuple.yaml` — the file `load_uuid_name_tuple` reads — unwritten, and
clobbering the candidate-name list.  The second run therefore finds no
persisted tuple, generates the fresh uuid again and draws its name from
the YAML text, yielding a different (name, uuid).  The save/load
asymmetry contradicts `load_uuid_name_tuple`/`save_uuid_name_tuple` and
the round-trip the code's own test exercises, so the code, not the claim,
is wrong. -/
theorem populate_config_not_idempotent :
    (populate_config 1 0 unsetConfig []).fst.uuid = some 1 ∧
    (populate_config 1 0 unsetConfig []).fst.name = some "unknown" ∧
    fsLookup (populate_config 1 0 unsetConfig []).snd "/data//name_tuple.yaml" = none ∧
    fsLookup (populate_config 1 0 unsetConfig []).snd "/data//names.txt"
      = some (.tuple ⟨some "unknown", some 1⟩) ∧
    (populate_config 2 0 unsetConfig (populate_config 1 0 unsetConfig []).snd).fst.uuid
      = some 2 ∧
    (populate_config 2 0 unsetConfig (populate_config 1 0 unsetConfig []).snd).fst.name
      = some "---" :=
  ⟨rfl, rfl, rfl, rfl, rfl, rfl⟩

/-- C6: the concrete `/proc/net/tcp` row parses to local 172.16.144.102:22,
remote 172.16.144.1:54645, uid 0 and inode 1227937; in particular the hex
endpoint 669010AC:0016 byte-swaps to 172.16.144.102 with port 22. -/
theorem proc_line_concrete :
    parse_connection testLine = .ok testConn ∧
    Ipv4.ofU32 (u32_from_be 0x669010AC) = ⟨172, 16, 144, 102⟩ ∧
    from_str_radix 16 65536 ("0016".data) = some 22 :=
  ⟨rfl, rfl, rfl⟩

end ZeroTrust
